/-
Verification of the storage layer of the ACEPlacementHub campus placement
portal.  The definitions below are a shallow embedding of the in-memory
`DatabaseStorage` class of `src/server/storage.ts` (the implementation the
Express routes in `src/server/routes.ts` actually use), together with the
route handlers the claims refer to.  Where a claim also cites the drifting
`MemStorage` or Drizzle-backed variants, those variants are embedded
separately and named accordingly.

Modelling conventions:
* A JavaScript `Map<number, T>` whose keys are always the stored value's
  `id` field (true for every `set` call in this codebase) is modelled as a
  `List T` in insertion order; `mapSet` replaces the first value with the
  same id (`Map.set` on an existing key) or appends (`Map.set` on a fresh
  key), `mapGet` is `Map.get`, `mapDelete` is `Map.delete`.
  `Array.from(map.values())` is the list itself.
* `Date` values are `Nat` timestamps; operations that call `Date.now()`
  take the current time as an explicit `now` argument.
* TypeScript `string` is Lean `String`; `x.toLowerCase().includes(y)` is
  `lcIncludes x y` below (ASCII case folding, as `Char.toLower` performs).
* Nullable / optional fields are `Option`; `{...user, password: undefined}`
  is modelled by a `password : Option String` field set to `none`.
-/
import Mathlib

namespace PlacementHub

/-! ### JavaScript `Map` keyed by the value's id -/

section KeyedList

variable {α : Type} (key : α → Nat)

/-- `Map.set k v` where the key `k` is always `key v`: replace the first
value carrying the same id, or append when the id is fresh. -/
def mapSet (v : α) : List α → List α
  | [] => [v]
  | x :: t => if key x = key v then v :: t else x :: mapSet v t

/-- `Map.get k`: the first value carrying id `k`. -/
def mapGet (k : Nat) (l : List α) : Option α :=
  l.find? (fun x => key x == k)

/-- `Map.delete k`: remove the first value carrying id `k`. -/
def mapDelete (k : Nat) : List α → List α
  | [] => []
  | x :: t => if key x = k then t else x :: mapDelete k t

theorem mem_mapSet_self (v : α) (l : List α) : v ∈ mapSet key v l := by
  induction l with
  | nil => simp [mapSet]
  | cons x t ih =>
    simp only [mapSet]
    by_cases h : key x = key v
    · rw [if_pos h]; exact List.mem_cons_self v t
    · rw [if_neg h]; exact List.mem_cons_of_mem _ ih

theorem mem_mapSet (v x : α) (l : List α) (hx : x ∈ mapSet key v l) :
    x = v ∨ x ∈ l := by
  induction l with
  | nil => simpa [mapSet] using hx
  | cons y t ih =>
    simp only [mapSet] at hx
    by_cases h : key y = key v
    · rw [if_pos h] at hx
      rcases List.mem_cons.1 hx with hx | hx
      · exact Or.inl hx
      · exact Or.inr (List.mem_cons_of_mem _ hx)
    · rw [if_neg h] at hx
      rcases List.mem_cons.1 hx with hx | hx
      · exact Or.inr (by simp [hx])
      · rcases ih hx with hx | hx
        · exact Or.inl hx
        · exact Or.inr (List.mem_cons_of_mem _ hx)

theorem mapGet_mapSet_self (v : α) (l : List α) :
    mapGet key (key v) (mapSet key v l) = some v := by
  induction l with
  | nil => simp [mapSet, mapGet, List.find?]
  | cons x t ih =>
    simp only [mapSet]
    by_cases h : key x = key v
    · rw [if_pos h]
      simp [mapGet, List.find?]
    · rw [if_neg h]
      have hb : (key x == key v) = false := by simpa using h
      simp only [mapGet, List.find?, hb] at ih ⊢
      exact ih

theorem countP_mapSet_le (p : α → Bool) (v : α) (l : List α) :
    (mapSet key v l).countP p ≤ l.countP p + (if p v then 1 else 0) := by
  induction l with
  | nil => simp [mapSet, List.countP_cons]
  | cons x t ih =>
    simp only [mapSet]
    by_cases h : key x = key v
    · rw [if_pos h, List.countP_cons, List.countP_cons]
      by_cases hv : p v <;> by_cases hx : p x <;> simp [hv, hx]
    · rw [if_neg h, List.countP_cons, List.countP_cons]
      by_cases hx : p x <;> simp only [hx] <;> simp <;> omega

theorem keys_mapSet_sub (v : α) (l : List α) (k : Nat)
    (hk : k ∈ (mapSet key v l).map key) : k = key v ∨ k ∈ l.map key := by
  rcases List.mem_map.1 hk with ⟨x, hx, rfl⟩
  rcases mem_mapSet key v x l hx with rfl | hx
  · exact Or.inl rfl
  · exact Or.inr (List.mem_map_of_mem key hx)

theorem mapSet_nodup (v : α) (l : List α)
    (h : (l.map key).Nodup) : ((mapSet key v l).map key).Nodup := by
  induction l with
  | nil => simp [mapSet]
  | cons x t ih =>
    simp only [List.map_cons, List.nodup_cons] at h
    simp only [mapSet]
    by_cases hx : key x = key v
    · rw [if_pos hx]
      simp only [List.map_cons, List.nodup_cons]
      exact ⟨by rw [← hx]; exact h.1, h.2⟩
    · rw [if_neg hx]
      simp only [List.map_cons, List.nodup_cons]
      refine ⟨fun hmem => ?_, ih h.2⟩
      rcases keys_mapSet_sub key v t (key x) hmem with h' | h'
      · exact hx h'
      · exact h.1 h'

/-- With duplicate-free ids, `Map.set` on a present key rewrites exactly the
entry carrying that id. -/
theorem mapSet_of_mem (v : α) (l : List α)
    (hnd : (l.map key).Nodup) (hmem : key v ∈ l.map key) :
    mapSet key v l = l.map (fun x => if key x = key v then v else x) := by
  induction l with
  | nil => simp at hmem
  | cons x t ih =>
    simp only [List.map_cons, List.nodup_cons] at hnd
    simp only [mapSet, List.map_cons]
    by_cases h : key x = key v
    · rw [if_pos h, if_pos h]
      have hpt : ∀ y ∈ t, (if key y = key v then v else y) = y := by
        intro y hy
        have : key y ≠ key v := fun hyv => hnd.1 (h ▸ hyv ▸ List.mem_map_of_mem key hy)
        simp [this]
      rw [List.map_congr_left hpt]
      simp
    · have hmem' : key v ∈ t.map key := by
        rcases List.mem_map.1 hmem with ⟨y, hy, hyk⟩
        rcases List.mem_cons.1 hy with rfl | hy
        · exact absurd hyk h
        · exact hyk ▸ List.mem_map_of_mem key hy
      rw [if_neg h, if_neg h, ih hnd.2 hmem']

theorem mem_mapDelete_sub (k : Nat) (x : α) (l : List α)
    (hx : x ∈ mapDelete key k l) : x ∈ l := by
  induction l with
  | nil => simp [mapDelete] at hx
  | cons y t ih =>
    simp only [mapDelete] at hx
    by_cases h : key y = k
    · rw [if_pos h] at hx
      exact List.mem_cons_of_mem _ hx
    · rw [if_neg h] at hx
      rcases List.mem_cons.1 hx with hx | hx
      · simp [hx]
      · exact List.mem_cons_of_mem _ (ih hx)

theorem countP_key_mapDelete (k : Nat) (l : List α)
    (hmem : k ∈ l.map key) :
    (mapDelete key k l).countP (fun x => key x == k) + 1
      = l.countP (fun x => key x == k) := by
  induction l with
  | nil => simp at hmem
  | cons x t ih =>
    simp only [mapDelete]
    by_cases h : key x = k
    · rw [if_pos h, List.countP_cons]
      simp [h]
    · have hmem' : k ∈ t.map key := by
        rcases List.mem_map.1 hmem with ⟨y, hy, hyk⟩
        rcases List.mem_cons.1 hy with rfl | hy
        · exact absurd hyk h
        · exact hyk ▸ List.mem_map_of_mem key hy
      rw [if_neg h, List.countP_cons, List.countP_cons]
      have hb : (key x == k) = false := by simpa using h
      have := ih hmem'
      simp only [hb, Bool.false_eq_true, if_false, Nat.add_zero]
      omega

/-- With duplicate-free ids, exactly one entry carries a present id. -/
theorem countP_key_eq_one (k : Nat) (l : List α)
    (hnd : (l.map key).Nodup) (hmem : k ∈ l.map key) :
    l.countP (fun x => key x == k) = 1 := by
  have h1 : l.countP (fun x => key x == k) = (l.map key).count k := by
    rw [List.count_eq_countP, List.countP_map]
    rfl
  rw [h1]
  rw [List.count_eq_one_of_mem hnd hmem]

theorem eq_of_key_eq (l : List α) (hnd : (l.map key).Nodup)
    (x y : α) (hx : x ∈ l) (hy : y ∈ l) (hxy : key x = key y) : x = y :=
  List.inj_on_of_nodup_map hnd hx hy hxy

end KeyedList

/-! ### Strings: `toLowerCase` / `includes` (src: `job.title.toLowerCase().includes(searchTerm)`) -/

/-- `needle` occurs as a contiguous substring of `hay` (JS `String.includes`). -/
def listIncludes (needle : List Char) : List Char → Bool
  | [] => needle.isEmpty
  | c :: t => needle.isPrefixOf (c :: t) || listIncludes needle t

/-- `hay.toLowerCase().includes(needle.toLowerCase())`. -/
def lcIncludes (hay needle : String) : Bool :=
  listIncludes (needle.data.map Char.toLower) (hay.data.map Char.toLower)

/-! ### Entities (shared/schema.ts) -/

/-- `users` table row.  `password` is `Option` so that the route-level
`{...user, password: undefined}` sanitisation is expressible; stored users
always carry `some hash`. -/
structure User where
  id : Nat
  email : String
  password : Option String
  firstName : String
  lastName : String
  phone : Option String := none
  role : String
  department : Option String := none
  cgpa : Option String := none
  skills : Option (List String) := none
  createdAt : Nat
deriving DecidableEq, Repr

/-- `jobs` table row.  `jobType` embeds the TS field `type`. -/
structure Job where
  id : Nat
  title : String
  company : String
  location : String
  jobType : String
  experience : Option String := none
  salary : Option String := none
  description : String
  requirements : Option (List String) := none
  skills : Option (List String) := none
  eligibility : Option String := none
  deadline : Nat
  isActive : Bool := true
  postedBy : Option Nat := none
  createdAt : Nat
deriving DecidableEq, Repr

/-- `applications` table row. -/
structure Application where
  id : Nat
  studentId : Nat
  jobId : Nat
  resumeId : Option Nat := none
  coverLetter : Option String := none
  motivation : Option String := none
  status : String
  rejectionReason : Option String := none
  appliedAt : Nat
deriving DecidableEq, Repr

/-- `resumes` table row. -/
structure Resume where
  id : Nat
  studentId : Nat
  fileName : String
  filePath : String
  isDefault : Bool
  uploadedAt : Nat
deriving DecidableEq, Repr

/-- `saved_jobs` table row. -/
structure SavedJob where
  id : Nat
  studentId : Nat
  jobId : Nat
  savedAt : Nat
deriving DecidableEq, Repr

/-- `notifications` table row.  `ntype` embeds the TS field `type`. -/
structure Notification where
  id : Nat
  userId : Nat
  title : String
  message : String
  ntype : String
  isRead : Bool
  createdAt : Nat
deriving DecidableEq, Repr

/-- `JobWithDetails`: a job plus the derived annotations `getJobs` adds when
a `userId` is supplied (absent = `none`, matching `undefined`). -/
structure JobWithDetails extends Job where
  savedByUser : Option Bool := none
  appliedByUser : Option Bool := none
deriving DecidableEq, Repr

/-- `ApplicationWithDetails`: an application enriched with related rows. -/
structure ApplicationWithDetails extends Application where
  job : Option Job := none
  student : Option User := none
  resume : Option Resume := none
deriving DecidableEq, Repr

/-- The private maps and id counters of the `DatabaseStorage` class in
`src/server/storage.ts`. -/
structure Store where
  users : List User := []
  jobs : List Job := []
  applications : List Application := []
  resumes : List Resume := []
  savedJobs : List SavedJob := []
  notifications : List Notification := []
  currentUserId : Nat := 1
  currentJobId : Nat := 1
  currentApplicationId : Nat := 1
  currentResumeId : Nat := 1
  currentSavedJobId : Nat := 1
  currentNotificationId : Nat := 1
deriving DecidableEq, Repr

/-! ### Application operations (src/server/storage.ts) -/

/-- Fields accepted by `insertApplicationSchema` (`id`, `appliedAt` and
`status` are omitted by the schema). -/
structure InsertApplication where
  studentId : Nat
  jobId : Nat
  resumeId : Option Nat := none
  coverLetter : Option String := none
  motivation : Option String := none
deriving DecidableEq, Repr

/-- `checkExistingApplication(studentId, jobId)`. -/
def checkExistingApplication (st : Store) (studentId jobId : Nat) :
    Option Application :=
  st.applications.find? (fun a => a.studentId == studentId && a.jobId == jobId)

/-- `createApplication(application)`: the spread is overridden by the
hard-coded `status: "pending"` and `rejectionReason: null`. -/
def createApplication (st : Store) (a : InsertApplication) (now : Nat) :
    Store × Application :=
  let newApplication : Application :=
    { id := st.currentApplicationId
      studentId := a.studentId
      jobId := a.jobId
      resumeId := a.resumeId
      coverLetter := a.coverLetter
      motivation := a.motivation
      status := "pending"
      rejectionReason := none
      appliedAt := now }
  ({ st with
      applications := mapSet Application.id newApplication st.applications
      currentApplicationId := st.currentApplicationId + 1 },
   newApplication)

/-- The raw JSON body of `POST /api/applications` before zod parsing: a
client may also send a `status` value. -/
structure RawApplicationBody where
  jobId : Nat
  resumeId : Option Nat := none
  coverLetter : Option String := none
  motivation : Option String := none
  status : Option String := none
deriving DecidableEq, Repr

/-- `insertApplicationSchema.parse(\x7b...req.body, studentId\x7d)`: the schema
omits `id`, `appliedAt` and `status`, so a client-supplied status is
dropped. -/
def parseInsertApplication (studentId : Nat) (b : RawApplicationBody) :
    InsertApplication :=
  { studentId := studentId
    jobId := b.jobId
    resumeId := b.resumeId
    coverLetter := b.coverLetter
    motivation := b.motivation }

/-- The `POST /api/applications` handler body (routes.ts lines 185-210):
reject when `checkExistingApplication` finds a row, otherwise create. -/
def postApplication (st : Store) (studentId : Nat) (b : RawApplicationBody)
    (now : Nat) : Store :=
  match checkExistingApplication st studentId
      (parseInsertApplication studentId b).jobId with
  | some _ => st
  | none => (createApplication st (parseInsertApplication studentId b) now).1

/-- `rejectionReason || null`: JS `||` maps `undefined` and `""` to `null`. -/
def jsStringOrNull (r : Option String) : Option String :=
  match r with
  | some s => if s = "" then none else some s
  | none => none

/-- `updateApplicationStatus(id, status, rejectionReason?)`; `none` models
the thrown `Error("Application not found")`. -/
def updateApplicationStatus (st : Store) (id : Nat) (status : String)
    (rejectionReason : Option String) : Option (Store × Application) :=
  match mapGet Application.id id st.applications with
  | none => none
  | some application =>
    let updatedApplication : Application :=
      { application with
          status := status
          rejectionReason := jsStringOrNull rejectionReason }
    some ({ st with
             applications :=
               mapSet Application.id updatedApplication st.applications },
          updatedApplication)

/-- `MemStorage.updateApplicationStatus` (src/unnamed/part_000 lines
286-297): the drifted variant keeps the old reason when none is supplied
(`rejectionReason || application.rejectionReason`). -/
def memUpdateApplicationStatus (st : Store) (id : Nat) (status : String)
    (rejectionReason : Option String) : Option (Store × Application) :=
  match mapGet Application.id id st.applications with
  | none => none
  | some application =>
    let updatedApplication : Application :=
      { application with
          status := status
          rejectionReason :=
            match rejectionReason with
            | some s => if s = "" then application.rejectionReason else some s
            | none => application.rejectionReason }
    some ({ st with
             applications :=
               mapSet Application.id updatedApplication st.applications },
          updatedApplication)

/-! ### Job operations (src/server/storage.ts getJobs, lines 216-261) -/

/-- The optional query filters of `getJobs`. -/
structure JobFilters where
  location : Option String := none
  jobType : Option String := none
  search : Option String := none
deriving DecidableEq, Repr

/-- JS truthiness of an optional string (`if (filters?.location)`): absent
and `""` are falsy. -/
def truthyString : Option String → Bool
  | none => false
  | some s => !(s = "")

/-- Descending sort by `createdAt` (`(a, b) => b.createdAt - a.createdAt`). -/
def sortByCreatedAtDesc (l : List Job) : List Job :=
  l.insertionSort (fun a b => b.createdAt ≤ a.createdAt)

/-- The search predicate of `getJobs`: title, company or description
contains the term case-insensitively. -/
def jobMatchesSearch (q : String) (job : Job) : Bool :=
  lcIncludes job.title q || lcIncludes job.company q ||
    lcIncludes job.description q

/-- `jobsArray` after `filter(job => job.isActive)`. -/
def filterActive (st : Store) : List Job :=
  st.jobs.filter (fun job => job.isActive)

/-- `jobsArray` after the `if (filters?.location)` step. -/
def filterLocation (filters : JobFilters) (l : List Job) : List Job :=
  match filters.location with
  | some loc =>
    if loc = "" then l else l.filter (fun job => lcIncludes job.location loc)
  | none => l

/-- `jobsArray` after the `if (filters?.type)` step (exact match). -/
def filterType (filters : JobFilters) (l : List Job) : List Job :=
  match filters.jobType with
  | some t => if t = "" then l else l.filter (fun job => job.jobType == t)
  | none => l

/-- `jobsArray` after the `if (filters?.search)` step. -/
def filterSearch (filters : JobFilters) (l : List Job) : List Job :=
  match filters.search with
  | some q => if q = "" then l else l.filter (jobMatchesSearch q)
  | none => l

/-- `jobsArray` after all three optional conjunctive filters. -/
def filteredJobs (st : Store) (filters : JobFilters) : List Job :=
  filterSearch filters (filterType filters (filterLocation filters
    (filterActive st)))

/-- `getJobs(filters?, userId?)`: keep active jobs, apply the conjunctive
location / type / search filters, sort newest-first, and annotate with
`savedByUser` / `appliedByUser` when a (truthy) userId is given. -/
def getJobs (st : Store) (filters : JobFilters) (userId : Option Nat) :
    List JobWithDetails :=
  match userId with
  | some uid =>
    if uid = 0 then
      (sortByCreatedAtDesc (filteredJobs st filters)).map
        (fun job => { toJob := job })
    else
      (sortByCreatedAtDesc (filteredJobs st filters)).map
        (fun job =>
          { toJob := job
            savedByUser :=
              some (st.savedJobs.any
                (fun sj => sj.studentId == uid && sj.jobId == job.id))
            appliedByUser :=
              some (st.applications.any
                (fun app => app.studentId == uid && app.jobId == job.id)) })
  | none =>
    (sortByCreatedAtDesc (filteredJobs st filters)).map
      (fun job => { toJob := job })

/-! ### Read endpoints embedding users (C2) -/

/-- `getAllApplications()`: every application enriched with its job and the
full student `User` row, sorted newest-applied-first. -/
def getAllApplications (st : Store) : List ApplicationWithDetails :=
  (st.applications.map (fun app =>
      { toApplication := app
        job := mapGet Job.id app.jobId st.jobs
        student := mapGet User.id app.studentId st.users })).insertionSort
    (fun a b => b.appliedAt ≤ a.appliedAt)

/-- The `GET /api/applications` handler (routes.ts lines 225-236) returns
`getAllApplications()` verbatim — no password stripping. -/
def getApplicationsResponse (st : Store) : List ApplicationWithDetails :=
  getAllApplications st

/-- `getUsersByDepartment(department)`. -/
def getUsersByDepartment (st : Store) (department : String) : List User :=
  st.users.filter (fun user => user.department == some department)

/-- The `GET /api/users/departments/:department` handler (routes.ts lines
375-386) maps each student to `\x7b...student, password: undefined\x7d`. -/
def getDepartmentsResponse (st : Store) (department : String) : List User :=
  (getUsersByDepartment st department).map
    (fun student => { student with password := none })

/-! ### User update (C8) -/

/-- `Partial<InsertUser>` as produced by `insertUserSchema.partial()`:
outer `Option` is field presence, inner `Option` is nullability. -/
structure PartialInsertUser where
  email : Option String := none
  password : Option String := none
  firstName : Option String := none
  lastName : Option String := none
  phone : Option (Option String) := none
  role : Option String := none
  department : Option (Option String) := none
  cgpa : Option (Option String) := none
  skills : Option (Option (List String)) := none
deriving DecidableEq, Repr

/-- The spread `\x7b...user, ...updates\x7d`: present update fields override. -/
def applyUserUpdates (user : User) (updates : PartialInsertUser) : User :=
  { user with
      email := updates.email.getD user.email
      password :=
        match updates.password with
        | some s => some s
        | none => user.password
      firstName := updates.firstName.getD user.firstName
      lastName := updates.lastName.getD user.lastName
      phone := updates.phone.getD user.phone
      role := updates.role.getD user.role
      department := updates.department.getD user.department
      cgpa := updates.cgpa.getD user.cgpa
      skills := updates.skills.getD user.skills }

/-- `updateUser(id, updates)`: spread, then explicitly re-assert `id` and
`createdAt` (storage.ts lines 177-189).  `none` models the thrown
`Error("User not found")`. -/
def updateUser (st : Store) (id : Nat) (updates : PartialInsertUser) :
    Option (Store × User) :=
  match mapGet User.id id st.users with
  | none => none
  | some user =>
    let updatedUser : User :=
      { applyUserUpdates user updates with
          id := user.id
          createdAt := user.createdAt }
    some ({ st with users := mapSet User.id updatedUser st.users },
          updatedUser)

/-- The `PUT /api/users/profile` handler (routes.ts lines 388-398):
`delete updates.password` before `updateUser`, and strip the password from
the response. -/
def putProfile (st : Store) (userId : Nat) (body : PartialInsertUser) :
    Option (Store × User) :=
  let updates := { body with password := none }
  (updateUser st userId updates).map
    (fun r => (r.1, { r.2 with password := none }))

/-! ### Resume operations (C3) -/

/-- `setDefaultResume(id, studentId)` (storage.ts lines 378-392): ownership
check, then a `forEach` over a snapshot of the student's resumes clearing
`isDefault`, then `set` of the target with `isDefault: true`. -/
def setDefaultResume (st : Store) (id studentId : Nat) : Store × Bool :=
  match mapGet Resume.id id st.resumes with
  | none => (st, false)
  | some resume =>
    if resume.studentId ≠ studentId then (st, false)
    else
      let cleared :=
        ((st.resumes.filter (fun r => r.studentId == studentId)).foldl
          (fun acc r => mapSet Resume.id { r with isDefault := false } acc)
          st.resumes)
      ({ st with
          resumes :=
            mapSet Resume.id { resume with isDefault := true } cleared },
       true)

/-- First SQL statement of `DatabaseStorage.setDefaultResume`
(src/unnamed/part_001 line 311): one atomic
`UPDATE resumes SET is_default = false WHERE student_id = $1`. -/
def dbClearDefaults (studentId : Nat) (l : List Resume) : List Resume :=
  l.map (fun r =>
    if r.studentId = studentId then { r with isDefault := false } else r)

/-- Second SQL statement (part_001 line 312): one atomic
`UPDATE resumes SET is_default = true WHERE id = $1 AND student_id = $2`. -/
def dbMarkDefault (id studentId : Nat) (l : List Resume) : List Resume :=
  l.map (fun r =>
    if r.id = id ∧ r.studentId = studentId then { r with isDefault := true }
    else r)

/-- `DatabaseStorage.setDefaultResume` (part_001 lines 310-314) run without
interference: the two statements back to back. -/
def dbSetDefaultResume (id studentId : Nat) (l : List Resume) :
    List Resume × Bool :=
  let l1 := dbClearDefaults studentId l
  (dbMarkDefault id studentId l1,
   l1.any (fun r => r.id == id && r.studentId == studentId))

/-- Number of default resumes of a student. -/
def defaultResumeCount (l : List Resume) (studentId : Nat) : Nat :=
  l.countP (fun r => r.studentId == studentId && r.isDefault)

/-! ### Saved-job operations (C6) -/

/-- `saveJob(studentId, jobId)`: unconditional insert. -/
def saveJob (st : Store) (studentId jobId now : Nat) : Store × SavedJob :=
  let savedJob : SavedJob :=
    { id := st.currentSavedJobId
      studentId := studentId
      jobId := jobId
      savedAt := now }
  ({ st with
      savedJobs := mapSet SavedJob.id savedJob st.savedJobs
      currentSavedJobId := st.currentSavedJobId + 1 },
   savedJob)

/-- `unsaveJob(studentId, jobId)`: find the first matching row; if none,
return `false`; otherwise `Map.delete` it and return whether the key was
present. -/
def unsaveJob (st : Store) (studentId jobId : Nat) : Store × Bool :=
  match st.savedJobs.find?
      (fun sj => sj.studentId == studentId && sj.jobId == jobId) with
  | none => (st, false)
  | some savedJob =>
    (({ st with
         savedJobs := mapDelete SavedJob.id savedJob.id st.savedJobs }),
     (mapGet SavedJob.id savedJob.id st.savedJobs).isSome)

/-- `checkSavedJob(studentId, jobId)`. -/
def checkSavedJob (st : Store) (studentId jobId : Nat) : Bool :=
  st.savedJobs.any (fun sj => sj.studentId == studentId && sj.jobId == jobId)

/-! ### Notification operations (C10) -/

/-- `getNotificationsByUser(userId)`: the user's notifications sorted
newest-first. -/
def getNotificationsByUser (st : Store) (userId : Nat) : List Notification :=
  (st.notifications.filter (fun n => n.userId == userId)).insertionSort
    (fun a b => b.createdAt ≤ a.createdAt)

/-- `getUnreadNotificationCount(userId)`. -/
def getUnreadNotificationCount (st : Store) (userId : Nat) : Nat :=
  (st.notifications.filter (fun n => n.userId == userId && !n.isRead)).length

/-! ### Small counting helpers -/

theorem countP_filter_and (p q : α → Bool) (l : List α) :
    (l.filter q).countP p = l.countP (fun a => q a && p a) := by
  rw [List.countP_filter]
  exact List.countP_congr (fun x _ => by
    constructor <;> intro h <;> simp_all [Bool.and_comm])

/-! ## C7: created applications start pending with no rejection reason -/

/-- C7: for every caller-supplied body (even one carrying a `status`
value, which the insert schema drops), the application stored by
`createApplication` has status `"pending"` and `rejectionReason` null,
and re-reading it from the store returns exactly that record. -/
theorem createApplication_starts_pending (st : Store) (studentId : Nat)
    (b : RawApplicationBody) (now : Nat) :
    (createApplication st (parseInsertApplication studentId b) now).2.status
        = "pending" ∧
    (createApplication st (parseInsertApplication studentId b)
        now).2.rejectionReason = none ∧
    mapGet Application.id st.currentApplicationId
        (createApplication st (parseInsertApplication studentId b)
          now).1.applications
      = some (createApplication st (parseInsertApplication studentId b) now).2
    := by
  refine ⟨rfl, rfl, ?_⟩
  exact mapGet_mapSet_self Application.id
    ((createApplication st (parseInsertApplication studentId b) now).2)
    st.applications

/-! ## C4: rejection reason is stored and then cleared -/

/-- The record written by the first C4 update. -/
def c4Rejected (app : Application) : Application :=
  { app with
      status := "rejected"
      rejectionReason := jsStringOrNull (some "not enough experience") }

/-- The store after the first C4 update. -/
def c4StoreAfterReject (st : Store) (app : Application) : Store :=
  { st with
      applications := mapSet Application.id (c4Rejected app) st.applications }

/-- The record written by the second C4 update. -/
def c4Accepted (app : Application) : Application :=
  { c4Rejected app with
      status := "accepted"
      rejectionReason := jsStringOrNull none }

/-- The store after the second C4 update. -/
def c4StoreAfterAccept (st : Store) (app : Application) : Store :=
  { c4StoreAfterReject st app with
      applications :=
        mapSet Application.id (c4Accepted app)
          (c4StoreAfterReject st app).applications }

/-- C4: updating an existing application to `"rejected"` with reason
`"not enough experience"` stores exactly that status and reason; a
subsequent update to `"accepted"` with no reason clears the stored
reason to null. -/
theorem updateApplicationStatus_reject_then_accept (st : Store) (id : Nat)
    (app : Application)
    (h : mapGet Application.id id st.applications = some app) :
    ∃ st1 a1 st2 a2,
      updateApplicationStatus st id "rejected" (some "not enough experience")
          = some (st1, a1) ∧
      mapGet Application.id id st1.applications = some a1 ∧
      a1.status = "rejected" ∧
      a1.rejectionReason = some "not enough experience" ∧
      updateApplicationStatus st1 id "accepted" none = some (st2, a2) ∧
      mapGet Application.id id st2.applications = some a2 ∧
      a2.status = "accepted" ∧
      a2.rejectionReason = none := by
  have hid : app.id = id := by
    have := List.find?_some h
    simpa using this
  have hg1 : mapGet Application.id id (c4StoreAfterReject st app).applications
      = some (c4Rejected app) := by
    have := mapGet_mapSet_self Application.id (c4Rejected app) st.applications
    simpa [c4StoreAfterReject, c4Rejected, hid] using this
  have hg2 : mapGet Application.id id (c4StoreAfterAccept st app).applications
      = some (c4Accepted app) := by
    have := mapGet_mapSet_self Application.id (c4Accepted app)
      (c4StoreAfterReject st app).applications
    simpa [c4StoreAfterAccept, c4Accepted, c4Rejected, hid] using this
  refine ⟨c4StoreAfterReject st app, c4Rejected app,
    c4StoreAfterAccept st app, c4Accepted app, ?_, ?_, ?_, ?_, ?_, ?_, ?_, ?_⟩
  · rw [updateApplicationStatus, h]
    rfl
  · exact hg1
  · rfl
  · show jsStringOrNull (some "not enough experience")
        = some "not enough experience"
    decide
  · rw [updateApplicationStatus, hg1]
    rfl
  · exact hg2
  · rfl
  · rfl

/-- Concrete application for the C4 witness. -/
def c4App : Application :=
  { id := 1, studentId := 1, jobId := 1, status := "pending", appliedAt := 0 }

/-- Concrete store for the C4 witness. -/
def c4Store : Store :=
  { applications := [c4App], currentApplicationId := 2 }

/-- Witness for C4 at a concrete store. -/
theorem updateApplicationStatus_reject_then_accept_witness :
    ∃ st1 a1 st2 a2,
      updateApplicationStatus c4Store 1 "rejected"
          (some "not enough experience") = some (st1, a1) ∧
      mapGet Application.id 1 st1.applications = some a1 ∧
      a1.status = "rejected" ∧
      a1.rejectionReason = some "not enough experience" ∧
      updateApplicationStatus st1 1 "accepted" none = some (st2, a2) ∧
      mapGet Application.id 1 st2.applications = some a2 ∧
      a2.status = "accepted" ∧
      a2.rejectionReason = none :=
  updateApplicationStatus_reject_then_accept c4Store 1 c4App (by decide)

/-! ## C10: unread count agrees with the notification list -/

/-- C10: `getUnreadNotificationCount(u)` equals the number of
notifications in `getNotificationsByUser(u)` whose `isRead` is false. -/
theorem unreadCount_eq_filter_notifications (st : Store) (u : Nat) :
    getUnreadNotificationCount st u
      = ((getNotificationsByUser st u).filter (fun n => !n.isRead)).length := by
  rw [getUnreadNotificationCount, getNotificationsByUser,
    ← List.countP_eq_length_filter, ← List.countP_eq_length_filter]
  rw [(List.perm_insertionSort _ _).countP_eq]
  rw [countP_filter_and]

/-! ## C1: at most one application per (student, job) pair -/

/-- Number of stored applications with the given (student, job) pair. -/
def applicationPairCount (st : Store) (s j : Nat) : Nat :=
  st.applications.countP (fun a => a.studentId == s && a.jobId == j)

/-- A sequence of create attempts through `POST /api/applications`, each
given as (authenticated student id, request body, current time). -/
def applicationCreateAttempts (st : Store)
    (ops : List (Nat × RawApplicationBody × Nat)) : Store :=
  ops.foldl (fun acc op => postApplication acc op.1 op.2.1 op.2.2) st

theorem postApplication_pairCount (st : Store) (s' : Nat)
    (b : RawApplicationBody) (now s j : Nat)
    (h : applicationPairCount st s j ≤ 1) :
    applicationPairCount (postApplication st s' b now) s j ≤ 1 := by
  cases hfind : checkExistingApplication st s'
      (parseInsertApplication s' b).jobId with
  | some a =>
    simpa [postApplication, hfind] using h
  | none =>
    have hgoal : applicationPairCount (postApplication st s' b now) s j
        = (mapSet Application.id
            { id := st.currentApplicationId
              studentId := s'
              jobId := b.jobId
              resumeId := b.resumeId
              coverLetter := b.coverLetter
              motivation := b.motivation
              status := "pending"
              rejectionReason := none
              appliedAt := now }
            st.applications).countP
          (fun a => a.studentId == s && a.jobId == j) := by
      have hfind' : checkExistingApplication st s' b.jobId = none := hfind
      simp [postApplication, hfind', createApplication, applicationPairCount,
        parseInsertApplication]
    rw [hgoal]
    have hle : (mapSet Application.id
          { id := st.currentApplicationId
            studentId := s'
            jobId := b.jobId
            resumeId := b.resumeId
            coverLetter := b.coverLetter
            motivation := b.motivation
            status := "pending"
            rejectionReason := none
            appliedAt := now }
          st.applications).countP
          (fun a => a.studentId == s && a.jobId == j)
        ≤ st.applications.countP (fun a => a.studentId == s && a.jobId == j)
          + (if (s' == s && b.jobId == j) = true then 1 else 0) :=
      countP_mapSet_le Application.id _ _ st.applications
    rw [applicationPairCount] at h
    by_cases hp : (s' == s && b.jobId == j) = true
    · obtain ⟨hp1, hp2⟩ := Bool.and_eq_true _ _ ▸ hp
      have hs : s' = s := by simpa using hp1
      have hj : b.jobId = j := by simpa using hp2
      have hz : st.applications.countP
          (fun a => a.studentId == s && a.jobId == j) = 0 := by
        apply List.countP_eq_zero.2
        intro a ha hpa
        have hall := List.find?_eq_none.1 hfind a ha
        apply hall
        simpa [parseInsertApplication, hs, hj] using hpa
      rw [if_pos hp] at hle
      omega
    · rw [if_neg hp] at hle
      omega

/-- C1: starting from any store satisfying the invariant, any sequence of
create attempts through the application-creation path leaves at most one
application per (student, job) pair. -/
theorem applicationPair_unique (ops : List (Nat × RawApplicationBody × Nat))
    (st : Store) (s j : Nat) (h : applicationPairCount st s j ≤ 1) :
    applicationPairCount (applicationCreateAttempts st ops) s j ≤ 1 := by
  induction ops generalizing st with
  | nil => simpa [applicationCreateAttempts] using h
  | cons op rest ih =>
    rw [applicationCreateAttempts, List.foldl_cons]
    exact ih _ (postApplication_pairCount st op.1 op.2.1 op.2.2 s j h)

/-- Witness for C1: two duplicate create attempts on the empty store leave
one application. -/
theorem applicationPair_unique_witness :
    applicationPairCount ({} : Store) 1 5 ≤ 1 ∧
    applicationPairCount
        (applicationCreateAttempts ({} : Store)
          [(1, { jobId := 5 }, 10), (1, { jobId := 5 }, 11)]) 1 5 ≤ 1 :=
  ⟨by decide,
   applicationPair_unique [(1, { jobId := 5 }, 10), (1, { jobId := 5 }, 11)]
     ({} : Store) 1 5 (by decide)⟩

/-! ## C2: the all-applications endpoint leaks the embedded password -/

/-- Stored student for the C2 failing input. -/
def c2User : User :=
  { id := 1, email := "s@u.edu", password := some "hashedpw",
    firstName := "A", lastName := "B", role := "student", createdAt := 0 }

/-- Stored application for the C2 failing input. -/
def c2Application : Application :=
  { id := 1, studentId := 1, jobId := 1, status := "pending", appliedAt := 0 }

/-- The C2 failing input: one user, one application by that user. -/
def c2Store : Store :=
  { users := [c2User], applications := [c2Application],
    currentUserId := 2, currentApplicationId := 2 }

/-- C2 fails on the code: the `GET /api/applications` response embeds the
full student record, password hash included — the route returns
`getAllApplications()` verbatim with no `password: undefined` projection,
unlike every other user-returning route. -/
theorem getApplications_response_leaks_password :
    ((getApplicationsResponse c2Store).head?.bind
        ApplicationWithDetails.student).bind User.password
      = some "hashedpw" := by decide

/-- For contrast, the department-listing route does strip passwords,
confirming the stripping rule is the codebase's intent. -/
theorem getDepartments_response_strips_password :
    ∀ u ∈ getDepartmentsResponse c2Store "CS", u.password = none := by
  intro u hu
  rcases List.mem_map.1 hu with ⟨v, _, rfl⟩
  rfl

/-! ## C9: getJobs only ever returns active jobs -/

theorem mem_filterLocation (filters : JobFilters) (l : List Job) (job : Job)
    (h : job ∈ filterLocation filters l) : job ∈ l := by
  cases hl : filters.location with
  | none => simpa [filterLocation, hl] using h
  | some loc =>
    by_cases he : loc = ""
    · simpa [filterLocation, hl, he] using h
    · have h' := h
      simp only [filterLocation, hl] at h'
      rw [if_neg he] at h'
      exact (List.mem_filter.1 h').1

theorem mem_filterType (filters : JobFilters) (l : List Job) (job : Job)
    (h : job ∈ filterType filters l) : job ∈ l := by
  cases ht : filters.jobType with
  | none => simpa [filterType, ht] using h
  | some t =>
    by_cases he : t = ""
    · simpa [filterType, ht, he] using h
    · have h' := h
      simp only [filterType, ht] at h'
      rw [if_neg he] at h'
      exact (List.mem_filter.1 h').1

theorem mem_filterSearch (filters : JobFilters) (l : List Job) (job : Job)
    (h : job ∈ filterSearch filters l) : job ∈ l := by
  cases hs : filters.search with
  | none => simpa [filterSearch, hs] using h
  | some q =>
    by_cases he : q = ""
    · simpa [filterSearch, hs, he] using h
    · have h' := h
      simp only [filterSearch, hs] at h'
      rw [if_neg he] at h'
      exact (List.mem_filter.1 h').1

/-- Every job surviving the filter pipeline is a stored active job. -/
theorem mem_filteredJobs (st : Store) (filters : JobFilters) (job : Job)
    (h : job ∈ filteredJobs st filters) :
    job ∈ st.jobs ∧ job.isActive = true := by
  have h1 := mem_filterLocation filters _ job
    (mem_filterType filters _ job (mem_filterSearch filters _ job h))
  rw [filterActive] at h1
  exact ⟨(List.mem_filter.1 h1).1, (List.mem_filter.1 h1).2⟩

/-- The underlying job of every `getJobs` result survived the filters. -/
theorem getJobs_toJob_mem (st : Store) (filters : JobFilters)
    (userId : Option Nat) (jd : JobWithDetails)
    (h : jd ∈ getJobs st filters userId) :
    jd.toJob ∈ filteredJobs st filters := by
  have hmem : ∃ job ∈ sortByCreatedAtDesc (filteredJobs st filters),
      jd.toJob = job := by
    cases userId with
    | none =>
      simp only [getJobs] at h
      rcases List.mem_map.1 h with ⟨job, hj, rfl⟩
      exact ⟨job, hj, rfl⟩
    | some uid =>
      simp only [getJobs] at h
      by_cases hz : uid = 0
      · rw [if_pos hz] at h
        rcases List.mem_map.1 h with ⟨job, hj, rfl⟩
        exact ⟨job, hj, rfl⟩
      · rw [if_neg hz] at h
        rcases List.mem_map.1 h with ⟨job, hj, rfl⟩
        exact ⟨job, hj, rfl⟩
  rcases hmem with ⟨job, hj, hje⟩
  rw [hje]
  exact (List.mem_insertionSort _).1 hj

/-- C9: for every filter combination and every store, every job returned
by `getJobs` has `isActive = true`. -/
theorem getJobs_only_active (st : Store) (filters : JobFilters)
    (userId : Option Nat) (jd : JobWithDetails)
    (h : jd ∈ getJobs st filters userId) : jd.isActive = true :=
  (mem_filteredJobs st filters jd.toJob
    (getJobs_toJob_mem st filters userId jd h)).2

/-- Concrete active job for the C9 witness. -/
def c9Job : Job :=
  { id := 1, title := "t", company := "c", location := "loc",
    jobType := "full-time", description := "d", deadline := 10,
    isActive := true, createdAt := 3 }

/-- Concrete store for the C9 witness. -/
def c9Store : Store := { jobs := [c9Job], currentJobId := 2 }

/-- Concrete result element for the C9 witness. -/
def c9Details : JobWithDetails := { toJob := c9Job }

/-- Witness for C9 at a concrete store. -/
theorem getJobs_only_active_witness :
    c9Details ∈ getJobs c9Store {} none ∧ c9Details.isActive = true :=
  ⟨by decide, getJobs_only_active c9Store {} none c9Details (by decide)⟩

/-! ## C5: search returns exactly the matching ACTIVE jobs -/

/-- The filters of `getJobs(\x7bsearch: q\x7d)`. -/
def searchFilters (q : String) : JobFilters := { search := some q }

/-- Inactive job whose title matches "react": the C5 counterexample. -/
def c5Job : Job :=
  { id := 1, title := "React intern", company := "c", location := "l",
    jobType := "internship", description := "d", deadline := 100,
    isActive := false, createdAt := 0 }

/-- Store for the C5 counterexample. -/
def c5Store : Store := { jobs := [c5Job], currentJobId := 2 }

/-- C5 as stated is false: a stored job matching "react" in its title is
omitted from `getJobs(\x7bsearch: "react"\x7d)` because it is inactive. -/
theorem getJobs_search_omits_inactive_match :
    c5Job ∈ c5Store.jobs ∧ jobMatchesSearch "react" c5Job = true ∧
    c5Job ∉ (getJobs c5Store (searchFilters "react") none).map
      JobWithDetails.toJob := by
  refine ⟨by decide, by decide, ?_⟩
  decide

/-- Mapping `toJob` over the unannotated `getJobs` result recovers the
sorted filtered job list. -/
theorem getJobs_none_map_toJob (st : Store) (filters : JobFilters) :
    (getJobs st filters none).map JobWithDetails.toJob
      = sortByCreatedAtDesc (filteredJobs st filters) := by
  rw [getJobs, List.map_map]
  have h1 : (JobWithDetails.toJob ∘ fun job => ({ toJob := job } : JobWithDetails))
      = fun job => job := rfl
  rw [h1]
  simp

/-- C5 amended: `getJobs(\x7bsearch: "react"\x7d)` returns exactly the stored
ACTIVE jobs whose title, company or description contains "react"
case-insensitively. -/
theorem getJobs_search_react_exact (st : Store) (job : Job) :
    job ∈ (getJobs st (searchFilters "react") none).map JobWithDetails.toJob
      ↔ job ∈ st.jobs ∧ job.isActive = true ∧
          jobMatchesSearch "react" job = true := by
  rw [getJobs_none_map_toJob, sortByCreatedAtDesc, List.mem_insertionSort]
  have hfj : filteredJobs st (searchFilters "react")
      = (st.jobs.filter (fun j => j.isActive)).filter
          (jobMatchesSearch "react") := rfl
  rw [hfj]
  constructor
  · intro h
    have h1 := List.mem_filter.1 h
    have h2 := List.mem_filter.1 h1.1
    exact ⟨h2.1, h2.2, h1.2⟩
  · rintro ⟨h1, h2, h3⟩
    exact List.mem_filter.2 ⟨List.mem_filter.2 ⟨h1, h2⟩, h3⟩

/-! ## C6: save / unsave / check round trip -/

theorem mapGet_isSome_of_mem {α : Type} (key : α → Nat) (x : α) (l : List α)
    (hx : x ∈ l) : (mapGet key (key x) l).isSome = true := by
  cases hf : mapGet key (key x) l with
  | some z => rfl
  | none =>
    exact absurd (by simp)
      (List.find?_eq_none.1 hf x hx :
        ¬ (key x == key x) = true)

/-- List-level core of C6: inserting a fresh (s, j) bookmark into a store
with no such bookmark, finding it, and deleting it. -/
theorem savedJobs_roundtrip_core (L : List SavedJob) (v : SavedJob)
    (hnd : (L.map SavedJob.id).Nodup)
    (hno : L.any
      (fun sj => sj.studentId == v.studentId && sj.jobId == v.jobId)
      = false) :
    (mapSet SavedJob.id v L).any
        (fun sj => sj.studentId == v.studentId && sj.jobId == v.jobId)
      = true ∧
    (mapSet SavedJob.id v L).find?
        (fun sj => sj.studentId == v.studentId && sj.jobId == v.jobId)
      = some v ∧
    (mapGet SavedJob.id v.id (mapSet SavedJob.id v L)).isSome = true ∧
    (mapDelete SavedJob.id v.id (mapSet SavedJob.id v L)).any
        (fun sj => sj.studentId == v.studentId && sj.jobId == v.jobId)
      = false ∧
    (mapDelete SavedJob.id v.id (mapSet SavedJob.id v L)).find?
        (fun sj => sj.studentId == v.studentId && sj.jobId == v.jobId)
      = none := by
  have hnoL : ∀ x ∈ L,
      ¬ (x.studentId == v.studentId && x.jobId == v.jobId) = true := by
    intro x hx
    exact (List.any_eq_false.1 hno) x hx
  have hpv : (v.studentId == v.studentId && v.jobId == v.jobId) = true := by
    simp
  have hvmem : v ∈ mapSet SavedJob.id v L := mem_mapSet_self SavedJob.id v L
  have hfind : (mapSet SavedJob.id v L).find?
      (fun sj => sj.studentId == v.studentId && sj.jobId == v.jobId)
      = some v := by
    cases hf : (mapSet SavedJob.id v L).find?
        (fun sj => sj.studentId == v.studentId && sj.jobId == v.jobId) with
    | none => exact absurd hpv (List.find?_eq_none.1 hf v hvmem)
    | some z =>
      have hz := List.find?_some hf
      have hzm := List.mem_of_find?_eq_some hf
      rcases mem_mapSet SavedJob.id v z L hzm with rfl | hzL
      · rfl
      · exact absurd hz (hnoL z hzL)
  have hnd1 : ((mapSet SavedJob.id v L).map SavedJob.id).Nodup :=
    mapSet_nodup SavedJob.id v L hnd
  have hvid : v.id ∈ (mapSet SavedJob.id v L).map SavedJob.id :=
    List.mem_map_of_mem SavedJob.id hvmem
  have hcount1 : (mapSet SavedJob.id v L).countP
      (fun x => SavedJob.id x == v.id) = 1 :=
    countP_key_eq_one SavedJob.id v.id _ hnd1 hvid
  have hcount0 : (mapDelete SavedJob.id v.id (mapSet SavedJob.id v L)).countP
      (fun x => SavedJob.id x == v.id) = 0 := by
    have := countP_key_mapDelete SavedJob.id v.id _ hvid
    omega
  have hvnot : v ∉ mapDelete SavedJob.id v.id (mapSet SavedJob.id v L) := by
    intro hv
    have h1 : (0 : Nat) < (mapDelete SavedJob.id v.id
        (mapSet SavedJob.id v L)).countP (fun x => SavedJob.id x == v.id) := by
      apply List.countP_pos_iff.2
      exact ⟨v, hv, by simp⟩
    omega
  have hdelnone : ∀ x ∈ mapDelete SavedJob.id v.id (mapSet SavedJob.id v L),
      ¬ (x.studentId == v.studentId && x.jobId == v.jobId) = true := by
    intro x hx hp
    have hx1 := mem_mapDelete_sub SavedJob.id v.id x _ hx
    rcases mem_mapSet SavedJob.id v x L hx1 with rfl | hxL
    · exact hvnot hx
    · exact hnoL x hxL hp
  refine ⟨?_, hfind, mapGet_isSome_of_mem SavedJob.id v _ hvmem, ?_, ?_⟩
  · exact List.any_eq_true.2 ⟨v, hvmem, hpv⟩
  · exact List.any_eq_false.2 hdelnone
  · exact List.find?_eq_none.2 hdelnone

/-- C6 amended: for a store whose saved-job ids are duplicate-free and
which does NOT already contain an (s, j) bookmark: after `saveJob(s, j)`,
`checkSavedJob(s, j)` is true; after a subsequent `unsaveJob(s, j)` (which
returns true) it is false; and a second `unsaveJob(s, j)` returns false
and leaves the store unchanged rather than raising an error. -/
theorem saveJob_unsaveJob_roundtrip (st : Store) (s j now : Nat)
    (hnd : (st.savedJobs.map SavedJob.id).Nodup)
    (hno : checkSavedJob st s j = false) :
    checkSavedJob (saveJob st s j now).1 s j = true ∧
    (unsaveJob (saveJob st s j now).1 s j).2 = true ∧
    checkSavedJob (unsaveJob (saveJob st s j now).1 s j).1 s j = false ∧
    (unsaveJob (unsaveJob (saveJob st s j now).1 s j).1 s j).2 = false ∧
    (unsaveJob (unsaveJob (saveJob st s j now).1 s j).1 s j).1
      = (unsaveJob (saveJob st s j now).1 s j).1 := by
  have core := savedJobs_roundtrip_core st.savedJobs
    { id := st.currentSavedJobId, studentId := s, jobId := j, savedAt := now }
    hnd hno
  obtain ⟨hany, hfind, hsome, hdelany, hdelfind⟩ := core
  have hfind' : (saveJob st s j now).1.savedJobs.find?
      (fun sj => sj.studentId == s && sj.jobId == j)
      = some { id := st.currentSavedJobId, studentId := s, jobId := j,
               savedAt := now } := hfind
  have he : unsaveJob (saveJob st s j now).1 s j
      = ({ (saveJob st s j now).1 with
            savedJobs := mapDelete SavedJob.id st.currentSavedJobId
              (saveJob st s j now).1.savedJobs },
         (mapGet SavedJob.id st.currentSavedJobId
            (saveJob st s j now).1.savedJobs).isSome) := by
    rw [unsaveJob, hfind']
  have hdelfind' :
      (unsaveJob (saveJob st s j now).1 s j).1.savedJobs.find?
        (fun sj => sj.studentId == s && sj.jobId == j) = none := by
    rw [he]
    exact hdelfind
  refine ⟨hany, ?_, ?_, ?_, ?_⟩
  · rw [he]
    exact hsome
  · rw [he]
    exact hdelany
  · rw [unsaveJob, hdelfind']
  · rw [unsaveJob, hdelfind']

/-- Witness store for C6: one unrelated bookmark. -/
def c6Store : Store :=
  { savedJobs := [{ id := 1, studentId := 9, jobId := 9, savedAt := 0 }],
    currentSavedJobId := 2 }

/-- Witness for C6 at a concrete store. -/
theorem saveJob_unsaveJob_roundtrip_witness :
    ((c6Store.savedJobs.map SavedJob.id).Nodup ∧
      checkSavedJob c6Store 1 2 = false) ∧
    (checkSavedJob (saveJob c6Store 1 2 5).1 1 2 = true ∧
      (unsaveJob (saveJob c6Store 1 2 5).1 1 2).2 = true ∧
      checkSavedJob (unsaveJob (saveJob c6Store 1 2 5).1 1 2).1 1 2 = false ∧
      (unsaveJob (unsaveJob (saveJob c6Store 1 2 5).1 1 2).1 1 2).2 = false ∧
      (unsaveJob (unsaveJob (saveJob c6Store 1 2 5).1 1 2).1 1 2).1
        = (unsaveJob (saveJob c6Store 1 2 5).1 1 2).1) :=
  ⟨⟨by decide, by decide⟩,
   saveJob_unsaveJob_roundtrip c6Store 1 2 5 (by decide) (by decide)⟩

/-- C6 as stated (for EVERY prior store state) is false: if the store
already holds an (s, j) bookmark, `saveJob` adds a duplicate and a single
`unsaveJob` deletes only the first, so `checkSavedJob` is still true. -/
def c6DupStore : Store :=
  { savedJobs := [{ id := 1, studentId := 1, jobId := 2, savedAt := 0 }],
    currentSavedJobId := 2 }

theorem unsaveJob_leaves_duplicate :
    checkSavedJob (unsaveJob (saveJob c6DupStore 1 2 5).1 1 2).1 1 2
      = true := by decide

/-! ## C8: profile update preserves id, creation date and password -/

/-- The user record `updateUser` writes for a C8 profile update. -/
def c8Stored (u : User) (body : PartialInsertUser) : User :=
  { applyUserUpdates u { body with password := none } with
      id := u.id, createdAt := u.createdAt }

/-- The store after a C8 profile update. -/
def c8NewStore (st : Store) (u : User) (body : PartialInsertUser) : Store :=
  { st with users := mapSet User.id (c8Stored u body) st.users }

/-- The sanitised response body of a C8 profile update. -/
def c8Resp (u : User) (body : PartialInsertUser) : User :=
  { c8Stored u body with password := none }

/-- C8: through `PUT /api/users/profile` the stored user keeps its id,
original `createdAt`, and password hash (the route strips `password` from
the update before calling `updateUser`), and the response carries no
password. -/
theorem putProfile_preserves (st : Store) (uid : Nat) (u : User)
    (body : PartialInsertUser)
    (h : mapGet User.id uid st.users = some u) :
    putProfile st uid body = some (c8NewStore st u body, c8Resp u body) ∧
    mapGet User.id uid (c8NewStore st u body).users = some (c8Stored u body) ∧
    (c8Stored u body).password = u.password ∧
    (c8Stored u body).id = u.id ∧
    (c8Stored u body).createdAt = u.createdAt ∧
    (c8Resp u body).password = none := by
  have hid : u.id = uid := by
    have := List.find?_some h
    simpa using this
  refine ⟨?_, ?_, rfl, rfl, rfl, rfl⟩
  · rw [putProfile, updateUser, h]
    rfl
  · have := mapGet_mapSet_self User.id (c8Stored u body) st.users
    simpa [c8NewStore, c8Stored, hid] using this

/-- Request body for the C8 witness: tries to change the first name AND
the password. -/
def c8Body : PartialInsertUser :=
  { firstName := some "Mallory", password := some "evil" }

/-- Witness for C8 at a concrete store: the password write is dropped. -/
theorem putProfile_preserves_witness :
    putProfile c2Store 1 c8Body
        = some (c8NewStore c2Store c2User c8Body, c8Resp c2User c8Body) ∧
    mapGet User.id 1 (c8NewStore c2Store c2User c8Body).users
        = some (c8Stored c2User c8Body) ∧
    (c8Stored c2User c8Body).password = c2User.password ∧
    (c8Stored c2User c8Body).id = c2User.id ∧
    (c8Stored c2User c8Body).createdAt = c2User.createdAt ∧
    (c8Resp c2User c8Body).password = none :=
  putProfile_preserves c2Store 1 c2User c8Body (by decide)

/-! ## C3: at most one default resume per student -/

section KeyedListFold

variable {α : Type} (key : α → Nat)

/-- A `forEach` of `Map.set` calls over a snapshot with duplicate-free ids
(each id present in the map) rewrites each snapshotted entry in place. -/
theorem foldl_mapSet_of_nodup (f : α → α) (hf : ∀ x, key (f x) = key x)
    (snap : List α) :
    ∀ l : List α, (l.map key).Nodup → (snap.map key).Nodup →
      (∀ r ∈ snap, key r ∈ l.map key) →
      snap.foldl (fun acc r => mapSet key (f r) acc) l
        = l.map (fun x =>
            match snap.find? (fun r => key r == key x) with
            | some r => f r
            | none => x) := by
  induction snap with
  | nil =>
    intro l _ _ _
    simp [List.find?]
  | cons r rest ih =>
    intro l hnd hsnd hmem
    have hsnd' : (rest.map key).Nodup := by
      simp only [List.map_cons, List.nodup_cons] at hsnd
      exact hsnd.2
    have hrkey : key r ∉ rest.map key := by
      simp only [List.map_cons, List.nodup_cons] at hsnd
      exact hsnd.1
    have hkfr : key (f r) = key r := hf r
    have hmemr : key (f r) ∈ l.map key := by
      rw [hkfr]
      exact hmem r (List.mem_cons_self r rest)
    rw [List.foldl_cons, mapSet_of_mem key (f r) l hnd hmemr]
    have hkeys : ((l.map
        (fun x => if key x = key (f r) then f r else x)).map key)
        = l.map key := by
      rw [List.map_map]
      apply List.map_congr_left
      intro x _
      by_cases hc : key x = key (f r)
      · simp only [Function.comp_apply, if_pos hc]
        rw [hkfr]
        exact (hc.trans hkfr).symm
      · simp only [Function.comp_apply, if_neg hc]
    have hmem' : ∀ r' ∈ rest,
        key r' ∈ (l.map (fun x => if key x = key (f r) then f r else x)).map
          key := by
      intro r' hr'
      rw [hkeys]
      exact hmem r' (List.mem_cons_of_mem r hr')
    rw [ih _ (hkeys ▸ hnd) hsnd' hmem', List.map_map]
    apply List.map_congr_left
    intro x _
    by_cases hc : key r = key x
    · have hb : (key r == key x) = true := by simpa using hc
      simp only [Function.comp_apply, hkfr]
      rw [List.find?_cons_of_pos rest hb]
      rw [if_pos hc.symm]
      rw [hkfr]
      have hrest' : rest.find? (fun r' => key r' == key r) = none := by
        apply List.find?_eq_none.2
        intro r' hr' hp
        apply hrkey
        have hk : key r' = key r := by simpa using hp
        rw [← hk]
        exact List.mem_map_of_mem key hr'
      rw [hrest']
    · have hb : ¬ (key r == key x) = true := by simpa using hc
      simp only [Function.comp_apply, hkfr]
      rw [List.find?_cons_of_neg rest hb]
      rw [if_neg (fun hh => hc hh.symm)]

end KeyedListFold

/-- The clear-then-mark `forEach` of `setDefaultResume`, under
duplicate-free resume ids, clears `isDefault` on exactly the student's
resumes. -/
theorem setDefaultResume_cleared_eq (l : List Resume) (sid : Nat)
    (hnd : (l.map Resume.id).Nodup) :
    (l.filter (fun r => r.studentId == sid)).foldl
        (fun acc r => mapSet Resume.id { r with isDefault := false } acc) l
      = l.map (fun x =>
          if x.studentId == sid then { x with isDefault := false } else x) := by
  have hsub : ((l.filter (fun r => r.studentId == sid)).map Resume.id).Nodup :=
    ((List.filter_sublist l).map Resume.id).nodup hnd
  have hmem : ∀ r ∈ l.filter (fun r => r.studentId == sid),
      Resume.id r ∈ l.map Resume.id := fun r hr =>
    List.mem_map_of_mem Resume.id (List.mem_filter.1 hr).1
  rw [foldl_mapSet_of_nodup Resume.id (fun r => { r with isDefault := false })
    (fun x => rfl) _ l hnd hsub hmem]
  apply List.map_congr_left
  intro x hx
  by_cases hsx : (x.studentId == sid) = true
  · have hxf : x ∈ l.filter (fun r => r.studentId == sid) :=
      List.mem_filter.2 ⟨hx, hsx⟩
    have hfind : (l.filter (fun r => r.studentId == sid)).find?
        (fun r => Resume.id r == Resume.id x) = some x := by
      cases hf : (l.filter (fun r => r.studentId == sid)).find?
          (fun r => Resume.id r == Resume.id x) with
      | none => exact absurd (by simp) (List.find?_eq_none.1 hf x hxf)
      | some z =>
        have hz := List.find?_some hf
        have hzm := List.mem_of_find?_eq_some hf
        have hzl : z ∈ l := (List.mem_filter.1 hzm).1
        have : z = x := eq_of_key_eq Resume.id l hnd z x hzl hx (by simpa using hz)
        rw [this]
    rw [hfind, if_pos hsx]
  · have hfind : (l.filter (fun r => r.studentId == sid)).find?
        (fun r => Resume.id r == Resume.id x) = none := by
      apply List.find?_eq_none.2
      intro z hz hp
      have hzl : z ∈ l := (List.mem_filter.1 hz).1
      have hzx : z = x := eq_of_key_eq Resume.id l hnd z x hzl hx (by simpa using hp)
      apply hsx
      rw [← hzx]
      exact (List.mem_filter.1 hz).2
    rw [hfind, if_neg hsx]

/-- In the success case (target found and owned), the resumes map after
`setDefaultResume` is the clear-all `forEach` followed by marking the
target. -/
theorem setDefaultResume_success_resumes (st : Store) (id sid : Nat)
    (resume : Resume)
    (hget : mapGet Resume.id id st.resumes = some resume)
    (hsid : resume.studentId = sid) :
    (setDefaultResume st id sid).1.resumes
      = mapSet Resume.id { resume with isDefault := true }
          ((st.resumes.filter (fun r => r.studentId == sid)).foldl
            (fun acc r => mapSet Resume.id { r with isDefault := false } acc)
            st.resumes) := by
  simp only [setDefaultResume, hget]
  rw [if_neg (by simp [hsid])]

/-- Under duplicate-free ids, a successful `setDefaultResume` rewrites the
map pointwise: the target becomes the marked resume, the student's other
resumes are cleared, everything else is untouched. -/
theorem setDefaultResume_resumes_eq (st : Store) (id sid : Nat)
    (resume : Resume) (hnd : (st.resumes.map Resume.id).Nodup)
    (hget : mapGet Resume.id id st.resumes = some resume)
    (hsid : resume.studentId = sid) :
    (setDefaultResume st id sid).1.resumes
      = st.resumes.map (fun x =>
          if x.id = resume.id then { resume with isDefault := true }
          else if x.studentId == sid then { x with isDefault := false }
          else x) := by
  have hresl : resume ∈ st.resumes :=
    List.mem_of_find?_eq_some (hget :
      st.resumes.find? (fun x => Resume.id x == id) = some resume)
  rw [setDefaultResume_success_resumes st id sid resume hget hsid,
    setDefaultResume_cleared_eq st.resumes sid hnd]
  have hkeys : ((st.resumes.map (fun x =>
      if x.studentId == sid then { x with isDefault := false } else x)).map
        Resume.id)
      = st.resumes.map Resume.id := by
    rw [List.map_map]
    apply List.map_congr_left
    intro x _
    by_cases hsx : (x.studentId == sid) = true
    · simp only [Function.comp_apply, if_pos hsx]
    · simp only [Function.comp_apply, if_neg hsx]
  have hmemid : Resume.id ({ resume with isDefault := true })
      ∈ (st.resumes.map (fun x =>
          if x.studentId == sid then { x with isDefault := false } else x)).map
        Resume.id := by
    rw [hkeys]
    have hm : Resume.id resume ∈ st.resumes.map Resume.id :=
      List.mem_map_of_mem Resume.id hresl
    exact hm
  rw [mapSet_of_mem Resume.id _ _ (hkeys ▸ hnd) hmemid, List.map_map]
  apply List.map_congr_left
  intro x _
  by_cases hsx : (x.studentId == sid) = true
  · simp only [Function.comp_apply, if_pos hsx]
  · simp only [Function.comp_apply, if_neg hsx]

/-- `setDefaultResume` never introduces duplicate resume ids. -/
theorem setDefaultResume_nodup (st : Store) (id sid : Nat)
    (hnd : (st.resumes.map Resume.id).Nodup) :
    (((setDefaultResume st id sid).1.resumes).map Resume.id).Nodup := by
  cases hget : mapGet Resume.id id st.resumes with
  | none =>
    simp only [setDefaultResume, hget]
    exact hnd
  | some resume =>
    by_cases hown : resume.studentId ≠ sid
    · simp only [setDefaultResume, hget, if_pos hown]
      exact hnd
    · have hsid : resume.studentId = sid := not_not.1 hown
      rw [setDefaultResume_resumes_eq st id sid resume hnd hget hsid,
        List.map_map]
      have : ∀ x ∈ st.resumes, (Resume.id ∘ fun x =>
          if x.id = resume.id then { resume with isDefault := true }
          else if x.studentId == sid then { x with isDefault := false }
          else x) x = Resume.id x := by
        intro x _
        by_cases hc : x.id = resume.id
        · simp only [Function.comp_apply, if_pos hc]
          exact hc.symm
        · by_cases hsx : (x.studentId == sid) = true
          · simp only [Function.comp_apply, if_neg hc, if_pos hsx]
          · simp only [Function.comp_apply, if_neg hc, if_neg hsx]
      rw [List.map_congr_left this]
      exact hnd

/-- One `setDefaultResume` call preserves "at most one default resume per
student" (and establishes it outright for the call's own student). -/
theorem setDefaultResume_count_le (st : Store) (id sid s : Nat)
    (hnd : (st.resumes.map Resume.id).Nodup)
    (h : defaultResumeCount st.resumes s ≤ 1) :
    defaultResumeCount (setDefaultResume st id sid).1.resumes s ≤ 1 := by
  cases hget : mapGet Resume.id id st.resumes with
  | none =>
    simp only [setDefaultResume, hget]
    exact h
  | some resume =>
    by_cases hown : resume.studentId ≠ sid
    · simp only [setDefaultResume, hget, if_pos hown]
      exact h
    · have hsid : resume.studentId = sid := not_not.1 hown
      have hresl : resume ∈ st.resumes :=
        List.mem_of_find?_eq_some (hget :
          st.resumes.find? (fun x => Resume.id x == id) = some resume)
      rw [defaultResumeCount,
        setDefaultResume_resumes_eq st id sid resume hnd hget hsid,
        List.countP_map]
      by_cases hs : s = sid
      · have hpt : ∀ x ∈ st.resumes,
            ((fun r => r.studentId == s && r.isDefault) ∘ fun x =>
              if x.id = resume.id then { resume with isDefault := true }
              else if x.studentId == sid then { x with isDefault := false }
              else x) x = true
            ↔ (Resume.id x == resume.id) = true := by
          intro x _
          by_cases hc : x.id = resume.id
          · simp only [Function.comp_apply, if_pos hc]
            simp [hsid, hs, hc]
          · by_cases hsx : (x.studentId == sid) = true
            · have hsx' : x.studentId = sid := by simpa using hsx
              simp only [Function.comp_apply, if_neg hc]
              simp [hsx', hc]
            · have hsx' : ¬ x.studentId = sid := by simpa using hsx
              simp only [Function.comp_apply, if_neg hc]
              simp [hsx', hc, hs]
        rw [List.countP_congr hpt]
        rw [countP_key_eq_one Resume.id resume.id st.resumes hnd
          (List.mem_map_of_mem Resume.id hresl)]
      · have hmono : ∀ x ∈ st.resumes,
            ((fun r => r.studentId == s && r.isDefault) ∘ fun x =>
              if x.id = resume.id then { resume with isDefault := true }
              else if x.studentId == sid then { x with isDefault := false }
              else x) x = true
            → (x.studentId == s && x.isDefault) = true := by
          intro x _ hp
          by_cases hc : x.id = resume.id
          · exfalso
            simp only [Function.comp_apply, if_pos hc] at hp
            have hss : resume.studentId = s := by simpa using hp
            exact hs (hss.symm.trans hsid)
          · by_cases hsx : (x.studentId == sid) = true
            · exfalso
              simp only [Function.comp_apply, if_neg hc, if_pos hsx] at hp
              simp at hp
            · simpa only [Function.comp_apply, if_neg hc, if_neg hsx] using hp
        exact le_trans (List.countP_mono_left hmono) h

/-- A sequence of `setDefaultResume` calls, each given as
(resume id, acting student id). -/
def setDefaultCalls (st : Store) (ops : List (Nat × Nat)) : Store :=
  ops.foldl (fun acc op => (setDefaultResume acc op.1 op.2).1) st

/-- C3 amended (sequential part): from any store with duplicate-free resume
ids and at most one default resume for student s, any sequence of
completed `setDefaultResume` calls leaves at most one default resume for
s. -/
theorem setDefaultResume_at_most_one_default (ops : List (Nat × Nat))
    (st : Store) (s : Nat)
    (hnd : (st.resumes.map Resume.id).Nodup)
    (h : defaultResumeCount st.resumes s ≤ 1) :
    defaultResumeCount (setDefaultCalls st ops).resumes s ≤ 1 := by
  induction ops generalizing st with
  | nil => simpa [setDefaultCalls] using h
  | cons op rest ih =>
    rw [setDefaultCalls, List.foldl_cons]
    exact ih _ (setDefaultResume_nodup st op.1 op.2 hnd)
      (setDefaultResume_count_le st op.1 op.2 s hnd h)

/-- Resumes for the C3 witness: student 7 owns two, one already default. -/
def c3WitnessStore : Store :=
  { resumes :=
      [{ id := 1, studentId := 7, fileName := "a", filePath := "a",
         isDefault := true, uploadedAt := 0 },
       { id := 2, studentId := 7, fileName := "b", filePath := "b",
         isDefault := false, uploadedAt := 1 }],
    currentResumeId := 3 }

/-- Witness for C3's sequential invariant at a concrete store. -/
theorem setDefaultResume_at_most_one_default_witness :
    ((c3WitnessStore.resumes.map Resume.id).Nodup ∧
      defaultResumeCount c3WitnessStore.resumes 7 ≤ 1) ∧
    defaultResumeCount
        (setDefaultCalls c3WitnessStore [(2, 7), (1, 7)]).resumes 7 ≤ 1 :=
  ⟨⟨by decide, by decide⟩,
   setDefaultResume_at_most_one_default [(2, 7), (1, 7)] c3WitnessStore 7
     (by decide) (by decide)⟩

/-- Resumes for the C3 concurrency counterexample. -/
def c3r1 : Resume :=
  { id := 1, studentId := 7, fileName := "a", filePath := "a",
    isDefault := false, uploadedAt := 0 }

/-- Second resume of the same student. -/
def c3r2 : Resume :=
  { id := 2, studentId := 7, fileName := "b", filePath := "b",
    isDefault := false, uploadedAt := 1 }

/-- C3 as stated is false for the Drizzle `DatabaseStorage` variant
(src/unnamed/part_001 lines 310-314): its two UPDATE statements are
separately atomic, so the interleaving clear(A), clear(B), mark(A, id 1),
mark(B, id 2) of two concurrent `setDefaultResume` calls for different
resume ids leaves the student with TWO default resumes. -/
theorem setDefaultResume_concurrent_two_defaults :
    defaultResumeCount
        (dbMarkDefault 2 7 (dbMarkDefault 1 7
          (dbClearDefaults 7 (dbClearDefaults 7 [c3r1, c3r2])))) 7 = 2 := by
  decide

end PlacementHub
